import Mathlib

/-!
Shallow embedding of the backend abstraction and generation-streaming
protocol of the localllm-studio repository (src/backends/base.py,
src/backends/llamacpp.py, src/backends/transformers_backend.py,
src/backends/mlx_backend.py), together with theorems settling the
frozen claims about it.

Conventions of the embedding:
* Python strings are Lean `String`; Python's `needle in hay` test is
  `pyIn`, its case-insensitive use `pattern.lower() in f.lower()` is
  `pyInCI`.
* Python exceptions are `PyErr` values (exception class name + message).
  A fallible external call is an `Except PyErr _` supplied as part of an
  environment record, so one Lean evaluation corresponds to one concrete
  execution of the Python code against those call outcomes.
* A streaming generator is embedded as a function from the trace of the
  underlying engine (the list of chunks it produced before either
  finishing or raising) to the list of `GenerationResult` values the
  Python generator yields.  Wall-clock readings `time.perf_counter() -
  start_time` are an input `times : Nat → ℚ` giving the elapsed time
  observed at the n-th token yield.
* Floats are modelled as rationals; `round(x, 1)` is `round1`.
-/

deriving instance DecidableEq for Except

namespace LocalLLM

/-- An exception value: Python class name and message. -/
structure PyErr where
  typeName : String
  msg : String
  deriving DecidableEq

/-- `GenerationResult` dataclass from src/backends/base.py, with the
dataclass field defaults. -/
structure GenerationResult where
  text : String
  tokens_generated : Nat := 0
  tokens_per_second : ℚ := 0
  prompt_tokens : Nat := 0
  finish_reason : String := "stop"
  deriving DecidableEq

/-- `ModelInfo` dataclass from src/backends/base.py. -/
structure ModelInfo where
  name : String
  path : String
  size_gb : ℚ
  context_length : Nat
  vocab_size : Nat
  quantization : Option String := none
  parameters : Option String := none
  deriving DecidableEq

/- ---------- string helpers (Python `in`, `.lower()`, `.endswith`) ---------- -/

/-- `listLeads n h`: the list `n` is an initial segment of `h`. -/
def listLeads : List Char → List Char → Bool
  | [], _ => true
  | _ :: _, [] => false
  | a :: as, b :: bs => a == b && listLeads as bs

/-- `listOccurs n h`: the list `n` occurs contiguously inside `h`. -/
def listOccurs : List Char → List Char → Bool
  | n, [] => n.isEmpty
  | n, c :: rest => listLeads n (c :: rest) || listOccurs n rest

/-- Python `needle in hay` on strings. -/
def pyIn (needle hay : String) : Bool :=
  listOccurs needle.data hay.data

/-- Characters of `s.lower()`. -/
def lowerChars (s : String) : List Char :=
  s.data.map Char.toLower

/-- Python `needle.lower() in hay.lower()`. -/
def pyInCI (needle hay : String) : Bool :=
  listOccurs (lowerChars needle) (lowerChars hay)

/-- Python `f.endswith(".gguf")` (case sensitive, as in the source). -/
def endsGguf (f : String) : Bool :=
  listLeads ".gguf".data.reverse f.data.reverse

/- ---------- tokens-per-second computation ---------- -/

/-- Python `round(x, 1)` modelled on rationals (round to the nearest
tenth). -/
def round1 (q : ℚ) : ℚ :=
  (round (10 * q) : ℤ) / 10

/-- The guarded throughput computation
`tps = tokens_generated / elapsed if elapsed > 0 else 0`
shared verbatim by llamacpp.py:313-314, transformers_backend.py:239-240
and mlx_backend.py:168-169. -/
def pyTps (tokens : Nat) (elapsed : ℚ) : ℚ :=
  if 0 < elapsed then (tokens : ℚ) / elapsed else 0

/- ---------- LlamaCppBackend.generate, streaming branch ---------- -/

/-- One chunk of the llama-cpp-python completion stream:
`output["choices"][0]["text"]` and
`output["choices"][0].get("finish_reason", "")` (where `none` stands for
a missing key or Python `None`). -/
structure LlamaChunk where
  text : String
  finish_reason : Option String := none
  deriving DecidableEq

/-- Python `finish_reason or "generating"`: `None` and `""` are falsy. -/
def orGenerating : Option String → String
  | none => "generating"
  | some s => if s = "" then "generating" else s

/-- The streaming loop of `LlamaCppBackend.generate`
(llamacpp.py:308-323) plus the `except` clause (llamacpp.py:350-355):
`tok` is the running `tokens_generated` counter, `err` the exception (if
any) raised by the engine after the listed chunks were produced.  Note
the error result passes the running counter
(`tokens_generated=tokens_generated`) and leaves the other fields at
their dataclass defaults. -/
def llamaGenGo (times : Nat → ℚ) (err : Option String) :
    Nat → List LlamaChunk → List GenerationResult
  | tok, [] =>
    match err with
    | none => []
    | some m => [{ text := "Error: " ++ m, tokens_generated := tok,
                   finish_reason := "error" }]
  | tok, c :: rest =>
    { text := c.text,
      tokens_generated := tok + 1,
      tokens_per_second := round1 (pyTps (tok + 1) (times tok)),
      finish_reason := orGenerating c.finish_reason } ::
      llamaGenGo times err (tok + 1) rest

/-- `LlamaCppBackend.generate` with `config.stream = True`: the list of
results yielded when the engine stream produces `chunks` and then either
ends (`err = none`) or raises an exception with message `m`
(`err = some m`). -/
def llamaGenerateStream (chunks : List LlamaChunk) (err : Option String)
    (times : Nat → ℚ) : List GenerationResult :=
  llamaGenGo times err 0 chunks

/- ---------- LlamaCppBackend.chat, streaming branch ---------- -/

/-- One chunk of the llama-cpp-python chat stream:
`output["choices"][0].get("delta", {}).get("content", "")` collapsed to
the string actually used (missing key / `None` behave as `""`). -/
structure ChatChunk where
  content : String
  deriving DecidableEq

/-- The streaming loop of `LlamaCppBackend.chat` (llamacpp.py:393-428)
plus its `except` clause (llamacpp.py:455-459).  `flag i` is the value
`self._stop_event.is_set()` reads at the i-th iteration (the event may
be set concurrently by `stop_generation`).  On cancellation the yielded
stop result passes the running token counter; the error result passes
nothing but `text` and `finish_reason`, so `tokens_generated` falls back
to the dataclass default 0.  `endT` is the elapsed time read for the
final stop result after the loop. -/
def llamaChatGo (flag : Nat → Bool) (times : Nat → ℚ) (endT : ℚ)
    (err : Option String) : Nat → Nat → List ChatChunk → List GenerationResult
  | _, tok, [] =>
    match err with
    | some m => [{ text := "Error: " ++ m, finish_reason := "error" }]
    | none => [{ text := "", tokens_generated := tok,
                 tokens_per_second := round1 (pyTps tok endT),
                 finish_reason := "stop" }]
  | i, tok, c :: rest =>
    if flag i then
      [{ text := "", tokens_generated := tok, finish_reason := "stop" }]
    else if c.content = "" then
      llamaChatGo flag times endT err (i + 1) tok rest
    else
      { text := c.content,
        tokens_generated := tok + 1,
        tokens_per_second := round1 (pyTps (tok + 1) (times tok)),
        finish_reason := "generating" } ::
        llamaChatGo flag times endT err (i + 1) (tok + 1) rest

/-- `LlamaCppBackend.chat` with `config.stream = True`: results yielded
when the engine produces `chunks` then ends (`err = none`) or raises
(`err = some m`), with `flag` the per-iteration reads of the stop
event. -/
def llamaChatStream (chunks : List ChatChunk) (err : Option String)
    (flag : Nat → Bool) (times : Nat → ℚ) (endT : ℚ) : List GenerationResult :=
  llamaChatGo flag times endT err 0 0 chunks

/- ---------- TransformersBackend.generate, streaming branch ---------- -/

/-- The streaming loop of `TransformersBackend.generate`
(transformers_backend.py:236-258) plus its `except` clause
(transformers_backend.py:282-286): one result per streamer fragment,
then a final empty-text stop result; on an exception, a terminal error
result with every other field left at its dataclass default. -/
def tfGenGo (times : Nat → ℚ) (endT : ℚ) (err : Option String) :
    Nat → List String → List GenerationResult
  | tok, [] =>
    match err with
    | some m => [{ text := "Error: " ++ m, finish_reason := "error" }]
    | none => [{ text := "", tokens_generated := tok,
                 tokens_per_second := round1 (pyTps tok endT),
                 finish_reason := "stop" }]
  | tok, t :: rest =>
    { text := t,
      tokens_generated := tok + 1,
      tokens_per_second := round1 (pyTps (tok + 1) (times tok)),
      finish_reason := "generating" } ::
      tfGenGo times endT err (tok + 1) rest

/-- `TransformersBackend.generate` with `config.stream = True`. -/
def tfGenerateStream (frags : List String) (err : Option String)
    (times : Nat → ℚ) (endT : ℚ) : List GenerationResult :=
  tfGenGo times endT err 0 frags

/- ---------- MLXBackend.generate, streaming branch ---------- -/

/-- The streaming loop of `MLXBackend.generate` (mlx_backend.py:155-186)
plus its `except` clause (mlx_backend.py:207-211): one result per
`response.text` fragment, then a final empty-text stop result; on an
exception, a terminal error result with defaulted fields. -/
def mlxGenGo (times : Nat → ℚ) (endT : ℚ) (err : Option String) :
    Nat → List String → List GenerationResult
  | tok, [] =>
    match err with
    | some m => [{ text := "Error: " ++ m, finish_reason := "error" }]
    | none => [{ text := "", tokens_generated := tok,
                 tokens_per_second := round1 (pyTps tok endT),
                 finish_reason := "stop" }]
  | tok, t :: rest =>
    { text := t,
      tokens_generated := tok + 1,
      tokens_per_second := round1 (pyTps (tok + 1) (times tok)),
      finish_reason := "generating" } ::
      mlxGenGo times endT err (tok + 1) rest

/-- `MLXBackend.generate` with `config.stream = True`. -/
def mlxGenerateStream (frags : List String) (err : Option String)
    (times : Nat → ℚ) (endT : ℚ) : List GenerationResult :=
  mlxGenGo times endT err 0 frags

/- ---------- LlamaCppBackend._download_from_hf ---------- -/

/-- The quantization preference order of llamacpp.py:217. -/
def quantPatterns : List String :=
  ["Q4_K_M", "Q4_K_S", "Q5_K_M", "Q4_0", "Q5_0"]

/-- The nested preference loop of llamacpp.py:216-223: for each pattern
in order, the first GGUF candidate whose lowered name contains the
lowered pattern; `none` when no candidate matches any pattern. -/
def findPreferred : List String → List String → Option String
  | [], _ => none
  | p :: ps, ggufs =>
    match ggufs.find? (fun f => pyInCI p f) with
    | some f => some f
    | none => findPreferred ps ggufs

/-- Artifact selection inside one fetch attempt (llamacpp.py:207-225):
filter the repository listing to `.gguf` files, fail with
`FileNotFoundError` when none exist, otherwise take the preferred
candidate or the first in listing order. -/
def selectGguf (repo_id : String) (files : List String) : Except PyErr String :=
  let gguf_files := files.filter (fun f => endsGguf f)
  match gguf_files with
  | [] => .error ⟨"FileNotFoundError", "No GGUF files found in " ++ repo_id⟩
  | f0 :: _ =>
    match findPreferred quantPatterns gguf_files with
    | some f => .ok f
    | none => .ok f0

/-- Outcomes of the two fallible external calls of one fetch attempt:
`list_repo_files` (llamacpp.py:207) and `hf_hub_download`
(llamacpp.py:232-236). -/
structure AttemptEnv where
  listing : Except PyErr (List String)
  download : Except PyErr String

/-- One iteration of the retry loop body (llamacpp.py:203-238): list the
repository, select the GGUF artifact, download it; the first exception
escapes to the `except` handler. -/
def hfAttempt (repo_id : String) (env : AttemptEnv) : Except PyErr String :=
  match env.listing with
  | .error e => .error e
  | .ok files =>
    match selectGguf repo_id files with
    | .error e => .error e
    | .ok _ => env.download

/-- The transient-error classifier of llamacpp.py:248-249: any of the
keywords occurs in the lowered exception class name or message. -/
def isRetryableErr (e : PyErr) : Bool :=
  ["connection", "timeout", "network", "ssl", "socket"].any
    (fun term => pyIn term (String.mk (lowerChars e.typeName)) ||
                 pyIn term (String.mk (lowerChars e.msg)))

/-- The retry loop of `_download_from_hf` (llamacpp.py:198-261) with
`max_retries = 3` and `retry_delay = 2`.  `envs n` is the environment of
the n-th attempt (0-based).  Returns the overall outcome, the number of
attempts made, and the backoff sleeps performed in seconds
(`wait_time = retry_delay * 2 ** attempt`).  `fuel` counts the
iterations `range(max_retries)` still has left; the retry branch only
recurses while `attempt < max_retries - 1`, so the fuel never runs out
when started at 3. -/
def hfGo (envs : Nat → AttemptEnv) (repo_id : String) :
    Nat → Nat → List Nat → Except PyErr String × Nat × List Nat
  | 0, attempt, sleeps => (.error ⟨"RuntimeError", "unreachable"⟩, attempt, sleeps)
  | fuel + 1, attempt, sleeps =>
    match hfAttempt repo_id (envs attempt) with
    | .ok p => (.ok p, attempt + 1, sleeps)
    | .error e =>
      if isRetryableErr e && attempt < 3 - 1 then
        hfGo envs repo_id fuel (attempt + 1) (sleeps ++ [2 * 2 ^ attempt])
      else if e.typeName = "InterruptedError" || e.typeName = "FileNotFoundError" then
        (.error e, attempt + 1, sleeps)
      else
        (.error ⟨"RuntimeError",
           "Download failed (" ++ e.typeName ++ "): " ++ e.msg⟩,
         attempt + 1, sleeps)

/-- `LlamaCppBackend._download_from_hf` against the attempt environments
`envs`. -/
def downloadFromHf (repo_id : String) (envs : Nat → AttemptEnv) :
    Except PyErr String × Nat × List Nat :=
  hfGo envs repo_id 3 0 []

/- ---------- load_model ---------- -/

/-- First tag of `tags` contained case-insensitively in `name`: the
detection loops of llamacpp.py:146-157 and mlx_backend.py:89-101. -/
def detectTag (tags : List String) (name : String) : Option String :=
  tags.find? (fun q => pyInCI q name)

/-- The quantization vocabulary of llamacpp.py:147. -/
def llamaQuantTags : List String :=
  ["Q2", "Q3", "Q4", "Q5", "Q6", "Q8", "F16", "F32"]

/-- The parameter-count vocabulary of llamacpp.py:154. -/
def llamaParamTags : List String :=
  ["1B", "3B", "7B", "8B", "13B", "14B", "30B", "33B", "34B", "70B", "72B"]

/-- `Path(model_path).stem`: last path component with its final
extension removed. -/
def pathStem (p : String) : String :=
  let base := (p.data.reverse.takeWhile (fun c => c ≠ '/')).reverse
  let rev := base.reverse
  if rev.contains '.' then
    String.mk ((rev.dropWhile (fun c => c ≠ '.')).drop 1).reverse
  else
    String.mk base

/-- Python `round(x, 2)` on rationals. -/
def round2 (q : ℚ) : ℚ :=
  (round (100 * q) : ℤ) / 100

/-- Mutable state of a `LlamaCppBackend` instance: `_is_loaded` and
`_model_info` from the base class, `_llm` (presence of the engine
object), `_context_length` and `_stop_event` from llamacpp.py:34-38. -/
structure LlamaState where
  is_loaded : Bool
  has_llm : Bool
  stop_event : Bool
  model_info : Option ModelInfo
  context_length : Nat
  deriving DecidableEq

/-- The freshly constructed backend (`LlamaCppBackend.__init__`). -/
def llamaInit : LlamaState :=
  { is_loaded := false, has_llm := false, stop_event := false,
    model_info := none, context_length := 4096 }

/-- Outcomes of the external calls made by `LlamaCppBackend.load_model`
(llamacpp.py:72-174): whether `llama_cpp` imports, whether the reference
is a repo id (`"/" in model_path and not os.path.exists(model_path)`),
the fetch environments, whether the resolved path exists, the file size
in GB, and the `Llama(...)` constructor outcome with `n_vocab()`. -/
structure LlamaLoadEnv where
  importOk : Bool
  isRepoRef : Bool
  hfEnvs : Nat → AttemptEnv
  resolvedExists : Bool
  fileSizeGb : ℚ
  ctor : Except PyErr Unit
  nVocab : Nat

/-- `LlamaCppBackend.load_model` as a state transformer: returns the
raised exception (if any), the post-state, and the returned `ModelInfo`
(if any).  Every failure path raises before `_is_loaded`,
`_context_length` or `_model_info` is assigned, exactly as in the
source. -/
def llamaLoadModel (s : LlamaState) (model_path : String) (n_ctx : Nat)
    (env : LlamaLoadEnv) : Option PyErr × LlamaState × Option ModelInfo :=
  if ¬ env.importOk then
    (some ⟨"ImportError", "llama-cpp-python not installed."⟩, s, none)
  else
    let resolved : Except PyErr String :=
      if env.isRepoRef then (downloadFromHf model_path env.hfEnvs).1
      else .ok model_path
    match resolved with
    | .error e => (some e, s, none)
    | .ok p =>
      if ¬ env.resolvedExists then
        (some ⟨"FileNotFoundError", "Model not found: " ++ p⟩, s, none)
      else
        match env.ctor with
        | .error e =>
          if pyIn "out of memory" (String.mk (lowerChars e.msg)) ||
             pyIn "cuda" (String.mk (lowerChars e.msg)) then
            (some ⟨"MemoryError", "Not enough memory to load model: " ++ e.msg⟩,
             s, none)
          else
            (some ⟨"RuntimeError", "Failed to load model: " ++ e.msg⟩, s, none)
        | .ok _ =>
          let model_name := pathStem p
          let mi : ModelInfo :=
            { name := model_name, path := p,
              size_gb := round2 env.fileSizeGb,
              context_length := n_ctx, vocab_size := env.nVocab,
              quantization := detectTag llamaQuantTags model_name,
              parameters := detectTag llamaParamTags model_name }
          (none,
           { s with is_loaded := true, has_llm := true,
                    context_length := n_ctx, model_info := some mi },
           some mi)

/-- Mutable state of an `MLXBackend` instance. -/
structure MLXState where
  is_loaded : Bool
  has_model : Bool
  model_info : Option ModelInfo
  deriving DecidableEq

/-- Outcomes of the external calls of `MLXBackend.load_model`
(mlx_backend.py:53-114). -/
structure MLXLoadEnv where
  importOk : Bool
  loadResult : Except PyErr Unit
  vocabSize : Nat

/-- `model_path.split("/")[-1] if "/" in model_path else model_path`. -/
def lastComponent (p : String) : String :=
  String.mk (p.data.reverse.takeWhile (fun c => c ≠ '/')).reverse

/-- `MLXBackend.load_model` as a state transformer. -/
def mlxLoadModel (s : MLXState) (model_path : String) (env : MLXLoadEnv) :
    Option PyErr × MLXState × Option ModelInfo :=
  if ¬ env.importOk then
    (some ⟨"ImportError", "mlx-lm not installed."⟩, s, none)
  else
    match env.loadResult with
    | .error e =>
      if pyIn "out of memory" (String.mk (lowerChars e.msg)) then
        (some ⟨"MemoryError", "Not enough memory: " ++ e.msg⟩, s, none)
      else
        (some ⟨"RuntimeError", "Failed to load model: " ++ e.msg⟩, s, none)
    | .ok _ =>
      let model_name := lastComponent model_path
      let mi : ModelInfo :=
        { name := model_name, path := model_path, size_gb := 0,
          context_length := 4096, vocab_size := env.vocabSize,
          quantization :=
            (detectTag ["4bit", "8bit", "fp16"] model_name).map
              (fun q => String.mk (q.data.map Char.toUpper)),
          parameters :=
            detectTag ["1B", "3B", "7B", "8B", "13B", "14B", "70B", "72B"]
              model_name }
      (none, { s with is_loaded := true, has_model := true,
                      model_info := some mi }, some mi)

/- ---------- state-level generate / chat / count_tokens ---------- -/

/-- `LlamaCppBackend.generate` (streaming) as a state transformer: the
guard of llamacpp.py:284-285 raises `RuntimeError` while unloaded; the
loaded body never assigns any instance attribute (the generation-time
exception, if any, is absorbed into the yielded error result). -/
def llamaGenerateCall (s : LlamaState) (chunks : List LlamaChunk)
    (err : Option String) (times : Nat → ℚ) :
    Option PyErr × LlamaState × List GenerationResult :=
  if ¬ s.is_loaded || ¬ s.has_llm then
    (some ⟨"RuntimeError", "No model loaded. Call load_model() first."⟩, s, [])
  else
    (none, s, llamaGenerateStream chunks err times)

/-- `LlamaCppBackend.chat` (streaming) as a state transformer: after the
loaded guard (llamacpp.py:367-368) it executes `self._stop_event.clear()`
(llamacpp.py:374); concurrent `stop_generation` calls during the loop
are modelled by the observation sequence `flag`, so the sequential
post-state carries the cleared event. -/
def llamaChatCall (s : LlamaState) (chunks : List ChatChunk)
    (err : Option String) (flag : Nat → Bool) (times : Nat → ℚ) (endT : ℚ) :
    Option PyErr × LlamaState × List GenerationResult :=
  if ¬ s.is_loaded || ¬ s.has_llm then
    (some ⟨"RuntimeError", "No model loaded."⟩, s, [])
  else
    (none, { s with stop_event := false },
     llamaChatStream chunks err flag times endT)

/-- `LlamaCppBackend.count_tokens` (llamacpp.py:461-465): `nTokens` is
the length of `self._llm.tokenize(text.encode())`. -/
def llamaCountTokens (s : LlamaState) (nTokens : Nat) :
    Option PyErr × LlamaState × Option Nat :=
  if ¬ s.is_loaded || ¬ s.has_llm then
    (some ⟨"RuntimeError", "No model loaded."⟩, s, none)
  else
    (none, s, some nTokens)

/-- `LlamaCppBackend.stop_generation` (llamacpp.py:357-359). -/
def llamaStopGeneration (s : LlamaState) : LlamaState :=
  { s with stop_event := true }

/-- Mutable state of a `TransformersBackend` instance. -/
structure TFState where
  is_loaded : Bool
  model_info : Option ModelInfo
  deriving DecidableEq

/-- `TransformersBackend.generate` (streaming) as a state transformer:
the guard of transformers_backend.py:199-200 raises `RuntimeError` while
unloaded; the loaded body assigns no instance attribute. -/
def tfGenerateCall (s : TFState) (frags : List String) (err : Option String)
    (times : Nat → ℚ) (endT : ℚ) :
    Option PyErr × TFState × List GenerationResult :=
  if ¬ s.is_loaded then
    (some ⟨"RuntimeError", "No model loaded."⟩, s, [])
  else
    (none, s, tfGenerateStream frags err times endT)

/-- `TransformersBackend.count_tokens`
(transformers_backend.py:308-312). -/
def tfCountTokens (s : TFState) (nTokens : Nat) :
    Option PyErr × TFState × Option Nat :=
  if ¬ s.is_loaded then
    (some ⟨"RuntimeError", "No model loaded."⟩, s, none)
  else
    (none, s, some nTokens)

/- ---------- is_available ---------- -/

/-- Python `except ImportError` also catches its subclass
`ModuleNotFoundError`. -/
def isImportError (e : PyErr) : Bool :=
  e.typeName = "ImportError" || e.typeName = "ModuleNotFoundError"

/-- `LlamaCppBackend.is_available` (llamacpp.py:46-52): the probe is
`import llama_cpp`; only `ImportError` is caught. -/
def llamaIsAvailable (probe : Except PyErr Unit) : Except PyErr Bool :=
  match probe with
  | .ok _ => .ok true
  | .error e => if isImportError e then .ok false else .error e

/-- `MLXBackend.is_available` (mlx_backend.py:41-51): catches
`ImportError` and then any `Exception`. -/
def mlxIsAvailable (probe : Except PyErr Unit) : Except PyErr Bool :=
  match probe with
  | .ok _ => .ok true
  | .error _ => .ok false

/-- `TransformersBackend.is_available` (transformers_backend.py:46-53):
only `ImportError` is caught. -/
def tfIsAvailable (probe : Except PyErr Unit) : Except PyErr Bool :=
  match probe with
  | .ok _ => .ok true
  | .error e => if isImportError e then .ok false else .error e

/- ---------- claim-level helper predicates ---------- -/

/-- A terminal result in the sense of the spec: finish_reason in
{stop, length, error}. -/
def isTerminal (r : GenerationResult) : Bool :=
  r.finish_reason = "stop" || r.finish_reason = "length" ||
    r.finish_reason = "error"

/-- The well-formed-stream shape of the spec: non-empty, the last
element terminal, every earlier element tagged "generating". -/
def oneTerminalLast : List GenerationResult → Bool
  | [] => false
  | [r] => isTerminal r
  | r :: rest => (r.finish_reason == "generating") && oneTerminalLast rest

/-- `tokens_generated` never drops below `n` and is non-decreasing along
the rest of the sequence. -/
def tokensMonotoneFrom (n : Nat) : List GenerationResult → Bool
  | [] => true
  | r :: rest =>
    (n ≤ r.tokens_generated : Bool) && tokensMonotoneFrom r.tokens_generated rest

/-- `tokens_generated` is non-decreasing along the sequence. -/
def tokensMonotone (rs : List GenerationResult) : Bool :=
  tokensMonotoneFrom 0 rs

/- ---------- helper lemmas about the stream functions ---------- -/

theorem oneTerminalLast_cons (r : GenerationResult) (l : List GenerationResult)
    (h : l ≠ []) :
    oneTerminalLast (r :: l) =
      ((r.finish_reason == "generating") && oneTerminalLast l) := by
  match l with
  | [] => exact absurd rfl h
  | x :: xs => rfl

theorem tfGenGo_ne_nil (times : Nat → ℚ) (endT : ℚ) (err : Option String) :
    ∀ frags tok, tfGenGo times endT err tok frags ≠ [] := by
  intro frags tok
  cases frags with
  | nil => cases err <;> simp [tfGenGo]
  | cons t rest => simp [tfGenGo]

theorem mlxGenGo_ne_nil (times : Nat → ℚ) (endT : ℚ) (err : Option String) :
    ∀ frags tok, mlxGenGo times endT err tok frags ≠ [] := by
  intro frags tok
  cases frags with
  | nil => cases err <;> simp [mlxGenGo]
  | cons t rest => simp [mlxGenGo]

theorem llamaChatGo_ne_nil (flag : Nat → Bool) (times : Nat → ℚ) (endT : ℚ)
    (err : Option String) :
    ∀ chunks i tok, llamaChatGo flag times endT err i tok chunks ≠ [] := by
  intro chunks
  induction chunks with
  | nil => intro i tok; cases err <;> simp [llamaChatGo]
  | cons c rest ih =>
    intro i tok
    simp only [llamaChatGo]
    split
    · simp
    · split
      · exact ih (i + 1) tok
      · simp

theorem llamaGenGo_ne_nil_of_ne_nil (times : Nat → ℚ) (err : Option String) :
    ∀ chunks tok, chunks ≠ [] → llamaGenGo times err tok chunks ≠ [] := by
  intro chunks tok h
  cases chunks with
  | nil => exact absurd rfl h
  | cons c rest => simp [llamaGenGo]

theorem llamaGenGo_some_ne_nil (times : Nat → ℚ) (m : String) :
    ∀ chunks tok, llamaGenGo times (some m) tok chunks ≠ [] := by
  intro chunks tok
  cases chunks with
  | nil => simp [llamaGenGo]
  | cons c rest => simp [llamaGenGo]

theorem tfGenGo_terminal (times : Nat → ℚ) (endT : ℚ) (err : Option String) :
    ∀ frags tok, oneTerminalLast (tfGenGo times endT err tok frags) = true := by
  intro frags
  induction frags with
  | nil => intro tok; cases err <;> simp [tfGenGo, oneTerminalLast, isTerminal]
  | cons t rest ih =>
    intro tok
    rw [tfGenGo, oneTerminalLast_cons _ _ (tfGenGo_ne_nil times endT err rest (tok + 1))]
    simp [ih]

theorem mlxGenGo_terminal (times : Nat → ℚ) (endT : ℚ) (err : Option String) :
    ∀ frags tok, oneTerminalLast (mlxGenGo times endT err tok frags) = true := by
  intro frags
  induction frags with
  | nil => intro tok; cases err <;> simp [mlxGenGo, oneTerminalLast, isTerminal]
  | cons t rest ih =>
    intro tok
    rw [mlxGenGo, oneTerminalLast_cons _ _ (mlxGenGo_ne_nil times endT err rest (tok + 1))]
    simp [ih]

theorem llamaChatGo_terminal (flag : Nat → Bool) (times : Nat → ℚ) (endT : ℚ)
    (err : Option String) :
    ∀ chunks i tok, oneTerminalLast (llamaChatGo flag times endT err i tok chunks) = true := by
  intro chunks
  induction chunks with
  | nil => intro i tok; cases err <;> simp [llamaChatGo, oneTerminalLast, isTerminal]
  | cons c rest ih =>
    intro i tok
    simp only [llamaChatGo]
    split
    · simp [oneTerminalLast, isTerminal]
    · split
      · exact ih (i + 1) tok
      · rw [oneTerminalLast_cons _ _
          (llamaChatGo_ne_nil flag times endT err rest (i + 1) (tok + 1))]
        simp [ih]

theorem tfGenGo_mono (times : Nat → ℚ) (endT : ℚ) :
    ∀ frags tok t, t ≤ tok →
      tokensMonotoneFrom t (tfGenGo times endT none tok frags) = true := by
  intro frags
  induction frags with
  | nil => intro tok t ht; simp [tfGenGo, tokensMonotoneFrom, ht]
  | cons x rest ih =>
    intro tok t ht
    simp only [tfGenGo, tokensMonotoneFrom, Bool.and_eq_true, decide_eq_true_eq]
    exact ⟨Nat.le_succ_of_le ht, ih (tok + 1) (tok + 1) le_rfl⟩

theorem mlxGenGo_mono (times : Nat → ℚ) (endT : ℚ) :
    ∀ frags tok t, t ≤ tok →
      tokensMonotoneFrom t (mlxGenGo times endT none tok frags) = true := by
  intro frags
  induction frags with
  | nil => intro tok t ht; simp [mlxGenGo, tokensMonotoneFrom, ht]
  | cons x rest ih =>
    intro tok t ht
    simp only [mlxGenGo, tokensMonotoneFrom, Bool.and_eq_true, decide_eq_true_eq]
    exact ⟨Nat.le_succ_of_le ht, ih (tok + 1) (tok + 1) le_rfl⟩

theorem llamaGenGo_mono (times : Nat → ℚ) (err : Option String) :
    ∀ chunks tok t, t ≤ tok →
      tokensMonotoneFrom t (llamaGenGo times err tok chunks) = true := by
  intro chunks
  induction chunks with
  | nil =>
    intro tok t ht
    cases err <;> simp [llamaGenGo, tokensMonotoneFrom, ht]
  | cons c rest ih =>
    intro tok t ht
    simp only [llamaGenGo, tokensMonotoneFrom, Bool.and_eq_true, decide_eq_true_eq]
    exact ⟨Nat.le_succ_of_le ht, ih (tok + 1) (tok + 1) le_rfl⟩

theorem llamaChatGo_mono (flag : Nat → Bool) (times : Nat → ℚ) (endT : ℚ) :
    ∀ chunks i tok t, t ≤ tok →
      tokensMonotoneFrom t (llamaChatGo flag times endT none i tok chunks) = true := by
  intro chunks
  induction chunks with
  | nil => intro i tok t ht; simp [llamaChatGo, tokensMonotoneFrom, ht]
  | cons c rest ih =>
    intro i tok t ht
    simp only [llamaChatGo]
    split
    · simp [tokensMonotoneFrom, ht]
    · split
      · exact ih (i + 1) tok t ht
      · simp only [tokensMonotoneFrom, Bool.and_eq_true, decide_eq_true_eq]
        exact ⟨Nat.le_succ_of_le ht, ih (i + 1) (tok + 1) (tok + 1) le_rfl⟩

theorem tokensMonotoneFrom_cons (n : Nat) (r : GenerationResult)
    (l : List GenerationResult) :
    tokensMonotoneFrom n (r :: l) =
      ((n ≤ r.tokens_generated : Bool) && tokensMonotoneFrom r.tokens_generated l) :=
  rfl

theorem tokensMonotoneFrom_dropLast :
    ∀ l n, tokensMonotoneFrom n l = true → tokensMonotoneFrom n l.dropLast = true := by
  intro l
  induction l with
  | nil => intro n h; simpa using h
  | cons r rest ih =>
    intro n h
    rw [tokensMonotoneFrom_cons, Bool.and_eq_true] at h
    cases rest with
    | nil => simp [tokensMonotoneFrom]
    | cons x xs =>
      rw [show (r :: x :: xs).dropLast = r :: (x :: xs).dropLast from rfl,
        tokensMonotoneFrom_cons, Bool.and_eq_true]
      exact ⟨h.1, ih r.tokens_generated h.2⟩

theorem llamaGenGo_some_eq (times : Nat → ℚ) (m : String) :
    ∀ chunks tok,
      llamaGenGo times (some m) tok chunks =
        llamaGenGo times none tok chunks ++
          [{ text := "Error: " ++ m, tokens_generated := tok + chunks.length,
             finish_reason := "error" }] := by
  intro chunks
  induction chunks with
  | nil => intro tok; simp [llamaGenGo]
  | cons c rest ih =>
    intro tok
    simp only [llamaGenGo, ih (tok + 1), List.cons_append, List.length_cons]
    have harith : tok + 1 + rest.length = tok + (rest.length + 1) := by omega
    rw [harith]

theorem tfGenGo_some_eq (times : Nat → ℚ) (endT : ℚ) (m : String) :
    ∀ frags tok,
      tfGenGo times endT (some m) tok frags =
        (tfGenGo times endT none tok frags).dropLast ++
          [{ text := "Error: " ++ m, finish_reason := "error" }] := by
  intro frags
  induction frags with
  | nil => intro tok; simp [tfGenGo]
  | cons t rest ih =>
    intro tok
    rw [tfGenGo, ih (tok + 1), tfGenGo,
      List.dropLast_cons_of_ne_nil (tfGenGo_ne_nil times endT none rest (tok + 1))]
    rfl

theorem mlxGenGo_some_eq (times : Nat → ℚ) (endT : ℚ) (m : String) :
    ∀ frags tok,
      mlxGenGo times endT (some m) tok frags =
        (mlxGenGo times endT none tok frags).dropLast ++
          [{ text := "Error: " ++ m, finish_reason := "error" }] := by
  intro frags
  induction frags with
  | nil => intro tok; simp [mlxGenGo]
  | cons t rest ih =>
    intro tok
    rw [mlxGenGo, ih (tok + 1), mlxGenGo,
      List.dropLast_cons_of_ne_nil (mlxGenGo_ne_nil times endT none rest (tok + 1))]
    rfl

theorem llamaGenGo_some_terminal (times : Nat → ℚ) (m : String) :
    ∀ chunks tok,
      (chunks.all fun c => orGenerating c.finish_reason == "generating") = true →
      oneTerminalLast (llamaGenGo times (some m) tok chunks) = true := by
  intro chunks
  induction chunks with
  | nil => intro tok _; simp [llamaGenGo, oneTerminalLast, isTerminal]
  | cons c rest ih =>
    intro tok h
    simp only [List.all_cons, Bool.and_eq_true, beq_iff_eq] at h
    rw [llamaGenGo, oneTerminalLast_cons _ _ (llamaGenGo_some_ne_nil times m rest (tok + 1))]
    simp only [Bool.and_eq_true, beq_iff_eq]
    exact ⟨h.1, ih (tok + 1) h.2⟩

theorem llamaGenGo_none_terminal (times : Nat → ℚ) :
    ∀ pre c tok,
      (pre.all fun x => orGenerating x.finish_reason == "generating") = true →
      (orGenerating c.finish_reason = "stop" ∨ orGenerating c.finish_reason = "length") →
      oneTerminalLast (llamaGenGo times none tok (pre ++ [c])) = true := by
  intro pre
  induction pre with
  | nil =>
    intro c tok _ hc
    simp only [List.nil_append, llamaGenGo, oneTerminalLast, isTerminal]
    rcases hc with hc | hc <;> simp [hc]
  | cons p pre' ih =>
    intro c tok h hc
    simp only [List.all_cons, Bool.and_eq_true, beq_iff_eq] at h
    rw [List.cons_append, llamaGenGo, oneTerminalLast_cons _ _
      (llamaGenGo_ne_nil_of_ne_nil times none (pre' ++ [c]) (tok + 1)
        (by simp))]
    simp only [Bool.and_eq_true, beq_iff_eq]
    refine ⟨h.1, ih c (tok + 1) ?_ hc⟩
    simpa using h.2

theorem llamaChatGo_cancel (flag : Nat → Bool) (times : Nat → ℚ) (endT : ℚ)
    (err : Option String) :
    ∀ chunks i0 i tok,
      (∀ j, j < i0 → flag (i + j) = false) → flag (i + i0) = true →
      i0 < chunks.length →
      llamaChatGo flag times endT err i tok chunks =
        (llamaChatGo flag times endT none i tok (chunks.take i0)).dropLast ++
          [{ text := "",
             tokens_generated :=
               tok + ((chunks.take i0).filter fun c => c.content ≠ "").length,
             finish_reason := "stop" }] := by
  intro chunks
  induction chunks with
  | nil =>
    intro i0 i tok _ _ hlen
    exact absurd hlen (by simp)
  | cons c rest ih =>
    intro i0 i tok hbefore hat hlen
    cases i0 with
    | zero =>
      have hf : flag i = true := by simpa using hat
      rw [List.take_zero]
      simp [llamaChatGo, hf]
    | succ k =>
      have hf : flag i = false := by simpa using hbefore 0 (Nat.succ_pos k)
      have hbefore2 : ∀ j, j < k → flag (i + 1 + j) = false := by
        intro j hj
        have := hbefore (j + 1) (by omega)
        rwa [show i + (j + 1) = i + 1 + j by omega] at this
      have hat2 : flag (i + 1 + k) = true := by
        rwa [show i + (k + 1) = i + 1 + k by omega] at hat
      have hlen2 : k < rest.length := by simpa using hlen
      rw [List.take_succ_cons]
      by_cases hc : c.content = ""
      · rw [show llamaChatGo flag times endT err i tok (c :: rest) =
              llamaChatGo flag times endT err (i + 1) tok rest by
            simp [llamaChatGo, hf, hc],
          show llamaChatGo flag times endT none i tok (c :: rest.take k) =
              llamaChatGo flag times endT none (i + 1) tok (rest.take k) by
            simp [llamaChatGo, hf, hc],
          show ((c :: rest.take k).filter fun x => x.content ≠ "") =
              (rest.take k).filter fun x => x.content ≠ "" by
            simp [List.filter_cons, hc]]
        exact ih k (i + 1) tok hbefore2 hat2 hlen2
      · rw [show llamaChatGo flag times endT err i tok (c :: rest) =
              { text := c.content, tokens_generated := tok + 1,
                tokens_per_second := round1 (pyTps (tok + 1) (times tok)),
                finish_reason := "generating" } ::
                llamaChatGo flag times endT err (i + 1) (tok + 1) rest by
            simp [llamaChatGo, hf, hc],
          show llamaChatGo flag times endT none i tok (c :: rest.take k) =
              { text := c.content, tokens_generated := tok + 1,
                tokens_per_second := round1 (pyTps (tok + 1) (times tok)),
                finish_reason := "generating" } ::
                llamaChatGo flag times endT none (i + 1) (tok + 1) (rest.take k) by
            simp [llamaChatGo, hf, hc],
          List.dropLast_cons_of_ne_nil
            (llamaChatGo_ne_nil flag times endT none (rest.take k) (i + 1) (tok + 1)),
          show ((c :: rest.take k).filter fun x => x.content ≠ "").length =
              ((rest.take k).filter fun x => x.content ≠ "").length + 1 by
            simp [List.filter_cons, hc],
          show tok + (((rest.take k).filter fun x => x.content ≠ "").length + 1) =
              (tok + 1) + ((rest.take k).filter fun x => x.content ≠ "").length by
            omega,
          List.cons_append]
        rw [ih k (i + 1) (tok + 1) hbefore2 hat2 hlen2]

theorem round1_zero : round1 0 = 0 := by
  simp [round1]

theorem round1_pyTps_eq (n : Nat) (e : ℚ) :
    round1 (pyTps n e) = if 0 < e then round1 ((n : ℚ) / e) else 0 := by
  unfold pyTps
  split
  · rfl
  · exact round1_zero

theorem llamaGenGo_get (times : Nat → ℚ) :
    ∀ chunks tok i r, (llamaGenGo times none tok chunks).get? i = some r →
      r.tokens_generated = tok + i + 1 ∧
      r.tokens_per_second = round1 (pyTps r.tokens_generated (times (tok + i))) := by
  intro chunks
  induction chunks with
  | nil => intro tok i r h; simp [llamaGenGo] at h
  | cons c rest ih =>
    intro tok i r h
    cases i with
    | zero =>
      rw [llamaGenGo, List.get?_cons_zero] at h
      injection h with h
      subst h
      exact ⟨rfl, rfl⟩
    | succ i =>
      rw [llamaGenGo, List.get?_cons_succ] at h
      have := ih (tok + 1) i r h
      rw [show tok + 1 + i = tok + (i + 1) by omega] at this
      exact this

theorem tfGenGo_get (times : Nat → ℚ) (endT : ℚ) :
    ∀ frags tok i r, i < frags.length →
      (tfGenGo times endT none tok frags).get? i = some r →
      r.tokens_generated = tok + i + 1 ∧
      r.tokens_per_second = round1 (pyTps r.tokens_generated (times (tok + i))) := by
  intro frags
  induction frags with
  | nil => intro tok i r hi _; exact absurd hi (by simp)
  | cons t rest ih =>
    intro tok i r hi h
    cases i with
    | zero =>
      rw [tfGenGo, List.get?_cons_zero] at h
      injection h with h
      subst h
      exact ⟨rfl, rfl⟩
    | succ i =>
      rw [tfGenGo, List.get?_cons_succ] at h
      have := ih (tok + 1) i r (by simpa using hi) h
      rw [show tok + 1 + i = tok + (i + 1) by omega] at this
      exact this

theorem tfGenGo_get_last (times : Nat → ℚ) (endT : ℚ) :
    ∀ frags tok,
      (tfGenGo times endT none tok frags).get? frags.length =
        some { text := "", tokens_generated := tok + frags.length,
               tokens_per_second := round1 (pyTps (tok + frags.length) endT),
               finish_reason := "stop" } := by
  intro frags
  induction frags with
  | nil => intro tok; simp [tfGenGo]
  | cons t rest ih =>
    intro tok
    rw [List.length_cons, tfGenGo, List.get?_cons_succ, ih (tok + 1),
      show tok + 1 + rest.length = tok + (rest.length + 1) by omega]

theorem mlxGenGo_get (times : Nat → ℚ) (endT : ℚ) :
    ∀ frags tok i r, i < frags.length →
      (mlxGenGo times endT none tok frags).get? i = some r →
      r.tokens_generated = tok + i + 1 ∧
      r.tokens_per_second = round1 (pyTps r.tokens_generated (times (tok + i))) := by
  intro frags
  induction frags with
  | nil => intro tok i r hi _; exact absurd hi (by simp)
  | cons t rest ih =>
    intro tok i r hi h
    cases i with
    | zero =>
      rw [mlxGenGo, List.get?_cons_zero] at h
      injection h with h
      subst h
      exact ⟨rfl, rfl⟩
    | succ i =>
      rw [mlxGenGo, List.get?_cons_succ] at h
      have := ih (tok + 1) i r (by simpa using hi) h
      rw [show tok + 1 + i = tok + (i + 1) by omega] at this
      exact this

theorem findPreferred_mem :
    ∀ ps l f, findPreferred ps l = some f → f ∈ l := by
  intro ps
  induction ps with
  | nil => intro l f h; simp [findPreferred] at h
  | cons p ps ih =>
    intro l f h
    rw [findPreferred] at h
    cases hf : l.find? (fun x => pyInCI p x) with
    | some g =>
      rw [hf] at h
      injection h with h
      subst h
      exact List.mem_of_find?_eq_some hf
    | none =>
      rw [hf] at h
      exact ih l f h

/- ====================  claim theorems  ==================== -/

/-- C1 (amended): for every streaming generate/chat call modelled here
the yielded sequence has exactly one terminal element
(finish_reason in {stop, length, error}) as its last element with all
prior results tagged "generating" (for the llama.cpp raw-completion
stream this needs the engine-stream contract: intermediate chunks carry
no finish_reason and, absent an exception, the final chunk carries
stop/length), and tokens_generated is monotonically non-decreasing
across the sequence — except that the terminal error result of the
transformers/MLX generate and llama.cpp chat paths carries the dataclass
default 0 instead of the running count (the llama.cpp generate error
result does preserve the count, so its sequences are monotone even on
error). -/
theorem claim1_stream_terminal_and_monotone :
    (∀ frags err times endT,
      oneTerminalLast (tfGenerateStream frags err times endT) = true)
  ∧ (∀ frags times endT,
      tokensMonotone (tfGenerateStream frags none times endT) = true)
  ∧ (∀ frags m times endT,
      tokensMonotone ((tfGenerateStream frags (some m) times endT).dropLast) = true)
  ∧ (∀ frags err times endT,
      oneTerminalLast (mlxGenerateStream frags err times endT) = true)
  ∧ (∀ frags times endT,
      tokensMonotone (mlxGenerateStream frags none times endT) = true)
  ∧ (∀ chunks err flag times endT,
      oneTerminalLast (llamaChatStream chunks err flag times endT) = true)
  ∧ (∀ chunks flag times endT,
      tokensMonotone (llamaChatStream chunks none flag times endT) = true)
  ∧ (∀ chunks err times,
      tokensMonotone (llamaGenerateStream chunks err times) = true)
  ∧ (∀ chunks m times,
      (chunks.all fun c => orGenerating c.finish_reason == "generating") = true →
      oneTerminalLast (llamaGenerateStream chunks (some m) times) = true)
  ∧ (∀ pre c times,
      (pre.all fun x => orGenerating x.finish_reason == "generating") = true →
      (orGenerating c.finish_reason = "stop" ∨ orGenerating c.finish_reason = "length") →
      oneTerminalLast (llamaGenerateStream (pre ++ [c]) none times) = true) := by
  refine ⟨?_, ?_, ?_, ?_, ?_, ?_, ?_, ?_, ?_, ?_⟩
  · intro frags err times endT
    exact tfGenGo_terminal times endT err frags 0
  · intro frags times endT
    exact tfGenGo_mono times endT frags 0 0 le_rfl
  · intro frags m times endT
    unfold tfGenerateStream
    rw [tfGenGo_some_eq times endT m frags 0]
    rw [List.dropLast_concat]
    exact tokensMonotoneFrom_dropLast _ 0 (tfGenGo_mono times endT frags 0 0 le_rfl)
  · intro frags err times endT
    exact mlxGenGo_terminal times endT err frags 0
  · intro frags times endT
    exact mlxGenGo_mono times endT frags 0 0 le_rfl
  · intro chunks err flag times endT
    exact llamaChatGo_terminal flag times endT err chunks 0 0
  · intro chunks flag times endT
    exact llamaChatGo_mono flag times endT chunks 0 0 0 le_rfl
  · intro chunks err times
    exact llamaGenGo_mono times err chunks 0 0 le_rfl
  · intro chunks m times h
    exact llamaGenGo_some_terminal times m chunks 0 h
  · intro pre c times h hc
    exact llamaGenGo_none_terminal times pre c 0 h hc

/-- C1 counterexample: on the transformers streaming generate path, an
engine exception after one yielded fragment produces the sequence
tokens_generated = [1, 0] — the terminal error result resets the counter
to the dataclass default 0, so tokens_generated is not monotonically
non-decreasing as the claim states (the terminal-last shape itself does
hold). -/
theorem claim1_counterexample :
    tokensMonotone (tfGenerateStream ["a"] (some "boom") (fun _ => 0) 0) = false ∧
    (tfGenerateStream ["a"] (some "boom") (fun _ => 0) 0).map
        (fun r => (r.tokens_generated, r.finish_reason)) =
      [(1, "generating"), (0, "error")] ∧
    oneTerminalLast (tfGenerateStream ["a"] (some "boom") (fun _ => 0) 0) = true := by
  decide

/-- C1 witness: the hypothesised llama.cpp conjunct applied to a
concrete one-chunk stream that errors out. -/
theorem claim1_witness :
    (([{ text := "a" }] : List LlamaChunk).all
        fun c => orGenerating c.finish_reason == "generating") = true ∧
    oneTerminalLast
        (llamaGenerateStream [{ text := "a" }] (some "x") (fun _ => 0)) = true :=
  ⟨by decide,
   claim1_stream_terminal_and_monotone.2.2.2.2.2.2.2.2.1
     [{ text := "a" }] "x" (fun _ => 0) (by decide)⟩

/-- C2 (amended): for streaming chat calls on the llama.cpp backend,
once the cancellation flag is set it is observed at the next yield
boundary (the check before processing the next chunk): the call yields
exactly one final empty-text result with finish_reason "stop" carrying
the running token count, and terminates early — its output depends only
on the chunks consumed before the flag was observed, so the rest of the
engine stream (and any later engine exception) is never processed and no
further content fragment is yielded.  The streaming generate path of the
same backend, by contrast, never reads the flag (see the
counterexample). -/
theorem claim2_chat_cancellation :
    ∀ chunks err flag times endT i0,
      ((List.range i0).all fun j => flag j == false) = true →
      flag i0 = true → i0 < chunks.length →
      llamaChatStream chunks err flag times endT =
        (llamaChatStream (chunks.take i0) none flag times endT).dropLast ++
          [{ text := "",
             tokens_generated :=
               ((chunks.take i0).filter fun c => c.content ≠ "").length,
             finish_reason := "stop" }] := by
  intro chunks err flag times endT i0 hb ha hl
  have hb' : ∀ j, j < i0 → flag (0 + j) = false := by
    intro j hj
    have := List.all_eq_true.mp hb j (List.mem_range.mpr hj)
    simpa using this
  have ha' : flag (0 + i0) = true := by simpa using ha
  have := llamaChatGo_cancel flag times endT err chunks i0 0 0 hb' ha' hl
  simpa [llamaChatStream] using this

/-- C2 counterexample: a streaming generate call on the llama.cpp
backend (which supports stop_generation) with the cancellation flag
already set still yields a content fragment tagged "generating" and
never yields the final empty-text "stop" result — the generate loop at
llamacpp.py:308-323 contains no check of the flag, refuting the claim
for "every streaming generate/chat call". -/
theorem claim2_counterexample :
    (llamaGenerateCall
        { is_loaded := true, has_llm := true, stop_event := true,
          model_info := none, context_length := 4096 }
        [{ text := "hi" }] none (fun _ => 0)).2.2.map
        (fun r => (r.text, r.finish_reason)) = [("hi", "generating")] := by
  decide

/-- C2 witness: the amended theorem applied to a two-chunk chat stream
whose flag becomes set at the second check. -/
theorem claim2_witness :
    ((List.range 1).all fun j => (decide (1 ≤ j)) == false) = true ∧
    decide (1 ≤ 1) = true ∧ (1 : Nat) < 2 ∧
    llamaChatStream [{ content := "a" }, { content := "b" }] (some "E")
        (fun j => decide (1 ≤ j)) (fun _ => 0) 0 =
      (llamaChatStream (([{ content := "a" }, { content := "b" }] :
            List ChatChunk).take 1) none
          (fun j => decide (1 ≤ j)) (fun _ => 0) 0).dropLast ++
        [{ text := "",
           tokens_generated :=
             ((([{ content := "a" }, { content := "b" }] :
                 List ChatChunk).take 1).filter fun c => c.content ≠ "").length,
           finish_reason := "stop" }] :=
  ⟨by decide, by decide, by decide,
   claim2_chat_cancellation [{ content := "a" }, { content := "b" }] (some "E")
     (fun j => decide (1 ≤ j)) (fun _ => 0) 0 1 (by decide) (by decide) (by decide)⟩

/-- C3 (amended): only chat clears the cancellation flag at the start of
an invocation (llamacpp.py:374); generate leaves the backend state —
including the flag — entirely untouched and never reads it.  A stale
cancellation therefore still never aborts a new call: chat because it
clears the flag first, generate because its outcome is independent of
the flag's value. -/
theorem claim3_flag_reset :
    (∀ s chunks err times, (llamaGenerateCall s chunks err times).2.1 = s)
  ∧ (∀ s chunks err flag times endT, s.is_loaded = true → s.has_llm = true →
      (llamaChatCall s chunks err flag times endT).2.1.stop_event = false)
  ∧ (∀ s chunks err times,
      (llamaGenerateCall (llamaStopGeneration s) chunks err times).1 =
        (llamaGenerateCall s chunks err times).1 ∧
      (llamaGenerateCall (llamaStopGeneration s) chunks err times).2.2 =
        (llamaGenerateCall s chunks err times).2.2)
  ∧ (∀ s chunks err flag times endT, s.is_loaded = true → s.has_llm = true →
      llamaChatCall (llamaStopGeneration s) chunks err flag times endT =
        llamaChatCall s chunks err flag times endT) := by
  refine ⟨?_, ?_, ?_, ?_⟩
  · intro s chunks err times
    unfold llamaGenerateCall
    split <;> rfl
  · intro s chunks err flag times endT h1 h2
    simp [llamaChatCall, h1, h2]
  · intro s chunks err times
    cases s
    simp only [llamaGenerateCall, llamaStopGeneration]
    constructor <;> (split <;> rfl)
  · intro s chunks err flag times endT h1 h2
    simp [llamaChatCall, llamaStopGeneration, h1, h2]

/-- C3 counterexample: a full streaming generate call on a loaded
llama.cpp backend whose cancellation flag was left set completes
normally and leaves the flag still set — generate does not reset
(clear) the flag at the start of the invocation as the claim states. -/
theorem claim3_counterexample :
    (llamaGenerateCall
        { is_loaded := true, has_llm := true, stop_event := true,
          model_info := none, context_length := 4096 } [] none (fun _ => 0)).1 =
      none ∧
    (llamaGenerateCall
        { is_loaded := true, has_llm := true, stop_event := true,
          model_info := none, context_length := 4096 } [] none
        (fun _ => 0)).2.1.stop_event = true := by
  decide

/-- C3 witness: the chat conjunct applied to a loaded state with a stale
flag. -/
theorem claim3_witness :
    ({ is_loaded := true, has_llm := true, stop_event := true,
       model_info := none, context_length := 4096 } : LlamaState).is_loaded = true ∧
    ({ is_loaded := true, has_llm := true, stop_event := true,
       model_info := none, context_length := 4096 } : LlamaState).has_llm = true ∧
    (llamaChatCall
        { is_loaded := true, has_llm := true, stop_event := true,
          model_info := none, context_length := 4096 }
        [] none (fun _ => false) (fun _ => 0) 0).2.1.stop_event = false :=
  ⟨rfl, rfl,
   claim3_flag_reset.2.1
     { is_loaded := true, has_llm := true, stop_event := true,
       model_info := none, context_length := 4096 }
     [] none (fun _ => false) (fun _ => 0) 0 rfl rfl⟩

theorem llamaLoadModel_error_state (s : LlamaState) (p : String) (n : Nat)
    (env : LlamaLoadEnv) (e : PyErr) (s2 : LlamaState) (mi : Option ModelInfo)
    (h : llamaLoadModel s p n env = (some e, s2, mi)) : s2 = s ∧ mi = none := by
  unfold llamaLoadModel at h
  repeat' split at h
  all_goals
    first
      | (simp only [Prod.mk.injEq] at h
         first
           | exact ⟨h.2.1.symm, h.2.2.symm⟩
           | exact absurd h.1 (by simp))
      | (rcases hdl : (downloadFromHf p env.hfEnvs).1 with e' | p' <;>
          rw [hdl] at h <;> simp only [Prod.mk.injEq] at h <;>
          first
            | exact ⟨h.2.1.symm, h.2.2.symm⟩
            | exact absurd h.1 (by simp))

theorem mlxLoadModel_error_state (s : MLXState) (p : String)
    (env : MLXLoadEnv) (e : PyErr) (s2 : MLXState) (mi : Option ModelInfo)
    (h : mlxLoadModel s p env = (some e, s2, mi)) : s2 = s ∧ mi = none := by
  unfold mlxLoadModel at h
  repeat' split at h
  all_goals simp only [Prod.mk.injEq] at h
  all_goals first
    | exact ⟨h.2.1.symm, h.2.2.symm⟩
    | exact absurd h.1 (by simp)

/-- C4 (confirmed): starting from an unloaded backend, every failing
`load_model` call on the llama.cpp and MLX backends — download failure,
missing file, interrupted/cancelled fetch, or engine-constructor failure
— raises before any instance attribute is assigned, so the post-state is
still unloaded, no ModelInfo is retained, and none is returned. -/
theorem claim4_load_failure_unloaded :
    (∀ s path n_ctx env e s2 mi,
      s.is_loaded = false → s.model_info = none →
      llamaLoadModel s path n_ctx env = (some e, s2, mi) →
      s2.is_loaded = false ∧ s2.model_info = none ∧ mi = none)
  ∧ (∀ s path env e s2 mi,
      s.is_loaded = false → s.model_info = none →
      mlxLoadModel s path env = (some e, s2, mi) →
      s2.is_loaded = false ∧ s2.model_info = none ∧ mi = none) := by
  constructor
  · intro s path n_ctx env e s2 mi h1 h2 h
    obtain ⟨hs, hm⟩ := llamaLoadModel_error_state s path n_ctx env e s2 mi h
    subst hs
    exact ⟨h1, h2, hm⟩
  · intro s path env e s2 mi h1 h2 h
    obtain ⟨hs, hm⟩ := mlxLoadModel_error_state s path env e s2 mi h
    subst hs
    exact ⟨h1, h2, hm⟩

/-- C4 witness: the llama.cpp conjunct applied to a fresh backend and an
environment whose engine import fails. -/
theorem claim4_witness :
    llamaInit.is_loaded = false ∧ llamaInit.model_info = none ∧
    llamaLoadModel llamaInit "org/model" 4096
        { importOk := false, isRepoRef := false,
          hfEnvs := fun _ => ⟨.ok [], .ok ""⟩, resolvedExists := false,
          fileSizeGb := 0, ctor := .ok (), nVocab := 0 } =
      (some ⟨"ImportError", "llama-cpp-python not installed."⟩, llamaInit, none) ∧
    llamaInit.is_loaded = false ∧ llamaInit.model_info = none ∧ (none : Option ModelInfo) = none :=
  ⟨rfl, rfl, rfl,
   claim4_load_failure_unloaded.1 llamaInit "org/model" 4096
     { importOk := false, isRepoRef := false,
       hfEnvs := fun _ => ⟨.ok [], .ok ""⟩, resolvedExists := false,
       fileSizeGb := 0, ctor := .ok (), nVocab := 0 }
     ⟨"ImportError", "llama-cpp-python not installed."⟩ llamaInit none
     rfl rfl rfl⟩

/-- C5 (amended): the fetch retry loop of `_download_from_hf` retries a
transient-classified failure (keyword match on error class/message) with
backoff sleeps of 2 then 4 seconds, up to 3 attempts in total; two
transient failures followed by a success yield the downloaded path after
exactly 3 attempts; a non-transient first failure propagates after
exactly 1 attempt with no sleep (re-raised as-is for
InterruptedError/FileNotFoundError, wrapped in RuntimeError otherwise);
and exhausting all retries raises RuntimeError — unless the final
transient-classified error is itself an InterruptedError or
FileNotFoundError, which is re-raised unchanged (see the
counterexample). -/
theorem claim5_retry_policy :
    (∀ repo envs e0 e1 p,
      hfAttempt repo (envs 0) = .error e0 → isRetryableErr e0 = true →
      hfAttempt repo (envs 1) = .error e1 → isRetryableErr e1 = true →
      hfAttempt repo (envs 2) = .ok p →
      downloadFromHf repo envs = (.ok p, 3, [2, 4]))
  ∧ (∀ repo envs e,
      hfAttempt repo (envs 0) = .error e → isRetryableErr e = false →
      downloadFromHf repo envs =
        (if e.typeName = "InterruptedError" ∨ e.typeName = "FileNotFoundError"
         then .error e
         else .error ⟨"RuntimeError",
                "Download failed (" ++ e.typeName ++ "): " ++ e.msg⟩,
         1, []))
  ∧ (∀ repo envs e0 e1 e2,
      hfAttempt repo (envs 0) = .error e0 → isRetryableErr e0 = true →
      hfAttempt repo (envs 1) = .error e1 → isRetryableErr e1 = true →
      hfAttempt repo (envs 2) = .error e2 → isRetryableErr e2 = true →
      e2.typeName ≠ "InterruptedError" → e2.typeName ≠ "FileNotFoundError" →
      downloadFromHf repo envs =
        (.error ⟨"RuntimeError",
           "Download failed (" ++ e2.typeName ++ "): " ++ e2.msg⟩, 3, [2, 4])) := by
  refine ⟨?_, ?_, ?_⟩
  · intro repo envs e0 e1 p h0 r0 h1 r1 h2
    simp [downloadFromHf, hfGo, h0, h1, h2, r0, r1]
  · intro repo envs e h0 r0
    simp only [downloadFromHf, hfGo, h0, r0, Bool.false_and, Bool.if_false_left]
    simp
    split <;> rfl
  · intro repo envs e0 e1 e2 h0 r0 h1 r1 h2 r2 hn1 hn2
    simp [downloadFromHf, hfGo, h0, h1, h2, r0, r1, r2, hn1, hn2]

/-- C5 counterexample: a transient-classified error (its message matches
the keyword "network") whose Python class is FileNotFoundError is
retried to exhaustion — 3 attempts with backoffs 2 s and 4 s — but the
final failure re-raises the FileNotFoundError itself instead of raising
RuntimeFailure as the claim states. -/
theorem claim5_counterexample :
    isRetryableErr ⟨"FileNotFoundError", "network unreachable"⟩ = true ∧
    downloadFromHf "org/model"
        (fun _ => ⟨.error ⟨"FileNotFoundError", "network unreachable"⟩, .ok "p"⟩) =
      (.error ⟨"FileNotFoundError", "network unreachable"⟩, 3, [2, 4]) := by
  decide

/-- C5 witness: two transient failures then a success — `load_model`'s
fetch succeeds with exactly 3 attempts and backoffs [2, 4]. -/
theorem claim5_witness :
    hfAttempt "org/model"
        ((fun n => if n < 2 then
            (⟨.error ⟨"ConnectionError", "reset"⟩, .error ⟨"x", "y"⟩⟩ : AttemptEnv)
          else ⟨.ok ["a.gguf"], .ok "/tmp/a.gguf"⟩) 0) =
      .error ⟨"ConnectionError", "reset"⟩ ∧
    isRetryableErr ⟨"ConnectionError", "reset"⟩ = true ∧
    hfAttempt "org/model"
        ((fun n => if n < 2 then
            (⟨.error ⟨"ConnectionError", "reset"⟩, .error ⟨"x", "y"⟩⟩ : AttemptEnv)
          else ⟨.ok ["a.gguf"], .ok "/tmp/a.gguf"⟩) 1) =
      .error ⟨"ConnectionError", "reset"⟩ ∧
    hfAttempt "org/model"
        ((fun n => if n < 2 then
            (⟨.error ⟨"ConnectionError", "reset"⟩, .error ⟨"x", "y"⟩⟩ : AttemptEnv)
          else ⟨.ok ["a.gguf"], .ok "/tmp/a.gguf"⟩) 2) =
      .ok "/tmp/a.gguf" ∧
    downloadFromHf "org/model"
        (fun n => if n < 2 then
            (⟨.error ⟨"ConnectionError", "reset"⟩, .error ⟨"x", "y"⟩⟩ : AttemptEnv)
          else ⟨.ok ["a.gguf"], .ok "/tmp/a.gguf"⟩) =
      (.ok "/tmp/a.gguf", 3, [2, 4]) :=
  ⟨by decide, by decide, by decide, by decide,
   claim5_retry_policy.1 "org/model"
     (fun n => if n < 2 then
         (⟨.error ⟨"ConnectionError", "reset"⟩, .error ⟨"x", "y"⟩⟩ : AttemptEnv)
       else ⟨.ok ["a.gguf"], .ok "/tmp/a.gguf"⟩)
     ⟨"ConnectionError", "reset"⟩ ⟨"ConnectionError", "reset"⟩ "/tmp/a.gguf"
     (by decide) (by decide) (by decide) (by decide) (by decide)⟩

/-- C6 (confirmed): when the underlying engine raises during a streaming
generate call, the results already yielded are preserved unchanged and
the stream terminates with one additional GenerationResult whose
finish_reason is "error" and whose text embeds the error message
("Error: " followed by it); the exception does not escape the lazy
sequence (the loaded call itself raises nothing). -/
theorem claim6_error_result :
    (∀ chunks m times,
      llamaGenerateStream chunks (some m) times =
        llamaGenerateStream chunks none times ++
          [{ text := "Error: " ++ m, tokens_generated := chunks.length,
             finish_reason := "error" }])
  ∧ (∀ frags m times endT,
      tfGenerateStream frags (some m) times endT =
        (tfGenerateStream frags none times endT).dropLast ++
          [{ text := "Error: " ++ m, finish_reason := "error" }])
  ∧ (∀ frags m times endT,
      mlxGenerateStream frags (some m) times endT =
        (mlxGenerateStream frags none times endT).dropLast ++
          [{ text := "Error: " ++ m, finish_reason := "error" }])
  ∧ (∀ s chunks m times, s.is_loaded = true → s.has_llm = true →
      (llamaGenerateCall s chunks (some m) times).1 = none) := by
  refine ⟨?_, ?_, ?_, ?_⟩
  · intro chunks m times
    unfold llamaGenerateStream
    rw [llamaGenGo_some_eq times m chunks 0]
    simp
  · intro frags m times endT
    exact tfGenGo_some_eq times endT m frags 0
  · intro frags m times endT
    exact mlxGenGo_some_eq times endT m frags 0
  · intro s chunks m times h1 h2
    simp [llamaGenerateCall, h1, h2]

/-- C6 witness: the loaded-call conjunct applied to a concrete loaded
state with a failing engine. -/
theorem claim6_witness :
    ({ is_loaded := true, has_llm := true, stop_event := false,
       model_info := none, context_length := 4096 } : LlamaState).is_loaded = true ∧
    ({ is_loaded := true, has_llm := true, stop_event := false,
       model_info := none, context_length := 4096 } : LlamaState).has_llm = true ∧
    (llamaGenerateCall
        { is_loaded := true, has_llm := true, stop_event := false,
          model_info := none, context_length := 4096 }
        [{ text := "a" }] (some "engine crashed") (fun _ => 0)).1 = none :=
  ⟨rfl, rfl,
   claim6_error_result.2.2.2
     { is_loaded := true, has_llm := true, stop_event := false,
       model_info := none, context_length := 4096 }
     [{ text := "a" }] "engine crashed" (fun _ => 0) rfl rfl⟩

/-- C7 (confirmed): remote-reference resolution filters the repository
listing to `.gguf` files and fails with FileNotFoundError when none
remain; any selected artifact is one of the candidates; when some
candidate matches the first preference tag Q4_K_M (case-insensitively)
the selected artifact matches it too; when no candidate matches any
preference tag the first candidate in listing order is selected; and
between Q4_K_M- and Q8_0-tagged artifacts the Q4_K_M one is selected
regardless of listing order. -/
theorem claim7_gguf_selection :
    (∀ repo files, files.filter (fun f => endsGguf f) = [] →
      selectGguf repo files =
        .error ⟨"FileNotFoundError", "No GGUF files found in " ++ repo⟩)
  ∧ (∀ repo files g, selectGguf repo files = .ok g →
      g ∈ files.filter (fun f => endsGguf f))
  ∧ (∀ repo files g f, f ∈ files.filter (fun f => endsGguf f) →
      pyInCI "Q4_K_M" f = true → selectGguf repo files = .ok g →
      pyInCI "Q4_K_M" g = true)
  ∧ (∀ repo files f0 fs, files.filter (fun f => endsGguf f) = f0 :: fs →
      findPreferred quantPatterns (f0 :: fs) = none →
      selectGguf repo files = .ok f0)
  ∧ selectGguf "org/model-7b" ["model-7b.Q4_K_M.gguf", "model-7b.Q8_0.gguf"] =
      .ok "model-7b.Q4_K_M.gguf"
  ∧ selectGguf "org/model-7b" ["model-7b.Q8_0.gguf", "model-7b.Q4_K_M.gguf"] =
      .ok "model-7b.Q4_K_M.gguf" := by
  refine ⟨?_, ?_, ?_, ?_, by decide, by decide⟩
  · intro repo files h
    simp [selectGguf, h]
  · intro repo files g hsel
    unfold selectGguf at hsel
    cases hl : files.filter (fun f => endsGguf f) with
    | nil => rw [hl] at hsel; exact absurd hsel (by simp)
    | cons f0 fs =>
      rw [hl] at hsel
      dsimp only at hsel
      cases hp : findPreferred quantPatterns (f0 :: fs) with
      | some fp =>
        rw [hp] at hsel
        injection hsel with hsel
        subst hsel
        exact findPreferred_mem quantPatterns (f0 :: fs) _ hp
      | none =>
        rw [hp] at hsel
        injection hsel with hsel
        subst hsel
        exact List.mem_cons_self _ _
  · intro repo files g f hf hq hsel
    unfold selectGguf at hsel
    cases hl : files.filter (fun f => endsGguf f) with
    | nil => rw [hl] at hf; exact absurd hf (by simp)
    | cons f0 fs =>
      rw [hl] at hsel hf
      dsimp only at hsel
      have hex : ((f0 :: fs).find? fun x => pyInCI "Q4_K_M" x).isSome := by
        rw [List.find?_isSome]
        exact ⟨f, hf, hq⟩
      obtain ⟨gg, hgg⟩ := Option.isSome_iff_exists.mp hex
      have hfp : findPreferred quantPatterns (f0 :: fs) = some gg := by
        unfold quantPatterns findPreferred
        rw [hgg]
      rw [hfp] at hsel
      injection hsel with hsel
      subst hsel
      exact List.find?_some hgg
  · intro repo files f0 fs hl hp
    unfold selectGguf
    rw [hl]
    dsimp only
    rw [hp]

/-- C7 witness: the candidate-membership conjunct applied to a two-file
listing containing a non-GGUF file. -/
theorem claim7_witness :
    selectGguf "org/m" ["README.md", "weights-Q4_K_M.gguf"] =
      .ok "weights-Q4_K_M.gguf" ∧
    "weights-Q4_K_M.gguf" ∈
      (["README.md", "weights-Q4_K_M.gguf"].filter fun f => endsGguf f) :=
  ⟨by decide,
   claim7_gguf_selection.2.1 "org/m" ["README.md", "weights-Q4_K_M.gguf"]
     "weights-Q4_K_M.gguf" (by decide)⟩

/-- C8 (confirmed): calling generate, chat or count_tokens on an
unloaded backend fails with RuntimeError, leaves the backend state
exactly unchanged and produces no GenerationResult (and no token
count). -/
theorem claim8_unloaded_calls_fail :
    (∀ s chunks err times, s.is_loaded = false →
      llamaGenerateCall s chunks err times =
        (some ⟨"RuntimeError", "No model loaded. Call load_model() first."⟩, s, []))
  ∧ (∀ s chunks err flag times endT, s.is_loaded = false →
      llamaChatCall s chunks err flag times endT =
        (some ⟨"RuntimeError", "No model loaded."⟩, s, []))
  ∧ (∀ s n, s.is_loaded = false →
      llamaCountTokens s n = (some ⟨"RuntimeError", "No model loaded."⟩, s, none))
  ∧ (∀ s frags err times endT, s.is_loaded = false →
      tfGenerateCall s frags err times endT =
        (some ⟨"RuntimeError", "No model loaded."⟩, s, []))
  ∧ (∀ s n, s.is_loaded = false →
      tfCountTokens s n = (some ⟨"RuntimeError", "No model loaded."⟩, s, none)) := by
  refine ⟨?_, ?_, ?_, ?_, ?_⟩
  · intro s chunks err times h
    simp [llamaGenerateCall, h]
  · intro s chunks err flag times endT h
    simp [llamaChatCall, h]
  · intro s n h
    simp [llamaCountTokens, h]
  · intro s frags err times endT h
    simp [tfGenerateCall, h]
  · intro s n h
    simp [tfCountTokens, h]

/-- C8 witness: the generate conjunct applied to a freshly constructed
llama.cpp backend. -/
theorem claim8_witness :
    llamaInit.is_loaded = false ∧
    llamaGenerateCall llamaInit [{ text := "hi" }] none (fun _ => 0) =
      (some ⟨"RuntimeError", "No model loaded. Call load_model() first."⟩,
       llamaInit, []) :=
  ⟨rfl, claim8_unloaded_calls_fail.1 llamaInit [{ text := "hi" }] none (fun _ => 0) rfl⟩

/-- C9 (amended): the MLX backend's is_available returns a bool on every
probe outcome (any probe exception yields false); the llama.cpp and
Transformers backends return true on a successful probe and false when
the probe raises ImportError (or its subclass ModuleNotFoundError), but
any other probe exception propagates out of them instead of yielding
false (see the counterexample). -/
theorem claim9_is_available :
    (∀ probe, ∃ b, mlxIsAvailable probe = .ok b)
  ∧ (∀ e, isImportError e = true →
      llamaIsAvailable (.error e) = .ok false ∧
      tfIsAvailable (.error e) = .ok false ∧
      mlxIsAvailable (.error e) = .ok false)
  ∧ (llamaIsAvailable (.ok ()) = .ok true ∧ tfIsAvailable (.ok ()) = .ok true ∧
      mlxIsAvailable (.ok ()) = .ok true) := by
  refine ⟨?_, ?_, by decide⟩
  · intro probe
    cases probe with
    | ok u => exact ⟨true, rfl⟩
    | error e => exact ⟨false, rfl⟩
  · intro e h
    refine ⟨?_, ?_, rfl⟩ <;> simp [llamaIsAvailable, tfIsAvailable, h]

/-- C9 counterexample: a probe failure that is not an ImportError — as
happens when importing llama_cpp raises OSError from a broken native
library — propagates out of is_available on the llama.cpp and
Transformers backends instead of being treated as unavailable, so
is_available does not "never throw" on every backend. -/
theorem claim9_counterexample :
    llamaIsAvailable (.error ⟨"OSError", "libllama.so: cannot open"⟩) =
      .error ⟨"OSError", "libllama.so: cannot open"⟩ ∧
    tfIsAvailable (.error ⟨"OSError", "libllama.so: cannot open"⟩) =
      .error ⟨"OSError", "libllama.so: cannot open"⟩ ∧
    mlxIsAvailable (.error ⟨"OSError", "libllama.so: cannot open"⟩) = .ok false := by
  decide

/-- C9 witness: the ImportError conjunct at a concrete ImportError. -/
theorem claim9_witness :
    isImportError ⟨"ImportError", "No module named llama_cpp"⟩ = true ∧
    llamaIsAvailable (.error ⟨"ImportError", "No module named llama_cpp"⟩) = .ok false ∧
    tfIsAvailable (.error ⟨"ImportError", "No module named llama_cpp"⟩) = .ok false ∧
    mlxIsAvailable (.error ⟨"ImportError", "No module named llama_cpp"⟩) = .ok false :=
  ⟨by decide, claim9_is_available.2.1 ⟨"ImportError", "No module named llama_cpp"⟩ (by decide)⟩

/-- C10 (confirmed): wherever a streaming generate path computes
tokens_per_second — at every per-token yield and at the final stop yield
— the division is guarded: the stored value equals tokens_generated
divided by the elapsed time rounded to one decimal place when the
elapsed time is positive, and 0 when it is not positive, so no division
by zero can occur (terminal error and cancellation results perform no
computation at all and carry the dataclass default 0). -/
theorem claim10_tps_guarded :
    (∀ t e, e ≤ 0 → round1 (pyTps t e) = 0)
  ∧ (∀ chunks times i r,
      (llamaGenerateStream chunks none times).get? i = some r →
      r.tokens_per_second =
        if 0 < times i then round1 ((r.tokens_generated : ℚ) / times i) else 0)
  ∧ (∀ frags times endT i r, i < frags.length →
      (tfGenerateStream frags none times endT).get? i = some r →
      r.tokens_per_second =
        if 0 < times i then round1 ((r.tokens_generated : ℚ) / times i) else 0)
  ∧ (∀ frags times endT r,
      (tfGenerateStream frags none times endT).get? frags.length = some r →
      r.tokens_per_second =
        if 0 < endT then round1 ((r.tokens_generated : ℚ) / endT) else 0)
  ∧ (∀ frags times endT i r, i < frags.length →
      (mlxGenerateStream frags none times endT).get? i = some r →
      r.tokens_per_second =
        if 0 < times i then round1 ((r.tokens_generated : ℚ) / times i) else 0) := by
  refine ⟨?_, ?_, ?_, ?_, ?_⟩
  · intro t e h
    rw [round1_pyTps_eq, if_neg (not_lt.mpr h)]
  · intro chunks times i r h
    have := llamaGenGo_get times chunks 0 i r h
    rw [this.2, round1_pyTps_eq]
    simp
  · intro frags times endT i r hi h
    have := tfGenGo_get times endT frags 0 i r hi h
    rw [this.2, round1_pyTps_eq]
    simp
  · intro frags times endT r h
    unfold tfGenerateStream at h
    have heq := tfGenGo_get_last times endT frags 0
    rw [h] at heq
    injection heq with heq
    subst heq
    rw [round1_pyTps_eq]
  · intro frags times endT i r hi h
    have := mlxGenGo_get times endT frags 0 i r hi h
    rw [this.2, round1_pyTps_eq]
    simp

/-- C10 witness: the guard conjunct at a concrete non-positive elapsed
time: the stored throughput is 0, with no division performed. -/
theorem claim10_witness :
    (0 : ℚ) ≤ 0 ∧ round1 (pyTps 3 0) = 0 :=
  ⟨le_refl 0, claim10_tps_guarded.1 3 0 (le_refl 0)⟩

end LocalLLM
